import Mathlib

/-!
Verification of the BG-Wordle guess-evaluation and game-state engine
(`src/WordleGame.js`, `src/config.js`) against its natural-language
specification.

Words are modelled as `List Char` (JS strings of Cyrillic letters),
tiles and keyboard keys as explicit records, and the engine as pure
state-transition functions `pressKey`, `deleteKey`, `submitGuess`
mirroring the methods of `WordleGame`.  Randomness (the freshly sampled
target word at round end) is passed in as an explicit parameter.
-/

namespace BGWordle

/-- Per-letter feedback classification (§3 of the spec). -/
inductive LetterStatus where
  | correct
  | present
  | absent
deriving DecidableEq, BEq, Repr

/-- The `data-state` attribute a tile can carry in `WordleGame.js`
(`active-spot`, `correct-spot`, `wrong-spot`, `missing-spot`); a fresh
tile carries none (modelled by `Option`). -/
inductive TileState where
  | activeSpot
  | correctSpot
  | wrongSpot
  | missingSpot
deriving DecidableEq, BEq, Repr

/-- A grid tile: its `data-letter` and `data-state` attributes
(each absent on a reset tile, hence `Option`). -/
structure Tile where
  letter : Option Char
  state : Option TileState
deriving DecidableEq, Repr

/-- A reset tile (`#resetTile`: both data attributes deleted). -/
def Tile.empty : Tile := ⟨none, none⟩

/-- Value of `config.wordLength` in `src/config.js`. -/
def wordLength : Nat := 5

/-- Value of `config.girdLength` in `src/config.js` (30 tiles = 6 rows of 5). -/
def girdLength : Nat := 30

/-- Value of `config.score.reward` in `src/config.js`. -/
def scoreReward : Int := 2

/-- Value of `config.score.penalty` in `src/config.js`. -/
def scorePenalty : Int := 1

/-!
## Feedback classification as the code computes it

`#flipTile` (WordleGame.js lines 254-271) classifies the letter at
active-row position `i` with a single-pass membership test:
`targetWord[index] === letter` gives `correct-spot`,
otherwise `targetWord.includes(letter)` gives `wrong-spot`,
otherwise `missing-spot`.
-/

/-- The three-way classification of `#flipTile` for one letter `c` at
position `i`: JS `targetWord[index] === letter` is `target.get? i = some c`
(out-of-range gives `undefined`, never equal to a letter), and JS
`targetWord.includes(letter)` for a one-character string is list
membership. -/
def flipLetter (target : List Char) (i : Nat) (c : Char) : LetterStatus :=
  if target.get? i = some c then .correct
  else if c ∈ target then .present
  else .absent

/-- Feedback of the code for a whole guess, position by position, starting
at position `i`. -/
def codeFeedbackFrom (target : List Char) : Nat → List Char → List LetterStatus
  | _, [] => []
  | i, c :: rest => flipLetter target i c :: codeFeedbackFrom target (i + 1) rest

/-- The feedback the code assigns to a submitted guess: `#flipTile`
applied to each guess position in order. -/
def codeFeedback (target guess : List Char) : List LetterStatus :=
  codeFeedbackFrom target 0 guess

/-!
## The two-pass reference algorithm of spec §4.2

This algorithm does NOT occur anywhere in `src/`; it is the duplicate-aware
scheme the spec mandates, embedded here so the code's feedback can be
compared against it.
-/

/-- Pass 2 of the reference algorithm over the `(guess, target)` letter
pairs: exact matches were already consumed from `remaining`, a remaining
occurrence of the guessed letter yields `present` and is consumed,
otherwise `absent`. -/
def twoPassGo : List (Char × Char) → List Char → List LetterStatus
  | [], _ => []
  | (g, t) :: rest, remaining =>
    if g = t then .correct :: twoPassGo rest remaining
    else if g ∈ remaining then .present :: twoPassGo rest (remaining.erase g)
    else .absent :: twoPassGo rest remaining

/-- Modelled from the spec: the two-pass duplicate-aware feedback
algorithm of §4.2, which is absent from `src/`.  Pass 1 marks `correct`
at every exact-match position and consumes that letter from a multiset
initialized from `target`; what remains of the multiset is exactly the
target letters at non-matching positions.  Pass 2 is `twoPassGo`. -/
def twoPassFeedback (target guess : List Char) : List LetterStatus :=
  let pairs := guess.zip target
  let remaining := (pairs.filter (fun p => p.1 ≠ p.2)).map Prod.snd
  twoPassGo pairs remaining

/-- Number of positions whose guess letter is `c` and whose feedback is
`correct` or `present`. -/
def countCP (guess : List Char) (fb : List LetterStatus) (c : Char) : Nat :=
  ((guess.zip fb).filter
    (fun p => p.1 = c ∧ (p.2 = LetterStatus.correct ∨ p.2 = LetterStatus.present))).length

/-- Target word `"АБВГД"` of the spec's duplicate-letter scenario. -/
def wABVGD : List Char := ['А', 'Б', 'В', 'Г', 'Д']

/-- All-same-letter guess `"ААААА"`. -/
def wAAAAA : List Char := ['А', 'А', 'А', 'А', 'А']

/-- Target word `"БОРКА"` of the spec's §8 scenario. -/
def wBORKA : List Char := ['Б', 'О', 'Р', 'К', 'А']

/-- Guess word `"БОРКО"` of the spec's §8 scenario. -/
def wBORKO : List Char := ['Б', 'О', 'Р', 'К', 'О']

/-- Guess word `"ООООО"`. -/
def wOOOOO : List Char := ['О', 'О', 'О', 'О', 'О']

/-!
## The engine state

`WordleGame` owns the tile array, the key elements, the target word and
the two score counters.  A keyboard key's accumulated CSS classes
(added by `#flipTile`, reset to the bare `key` class by `#initialize`)
are modelled as three booleans; `localStorage` as the
`stored` field.  Of the 32 configured keys only the 30 letter keys can
ever match the one-character letter of a tile (`Enter` and `Delete` are
multi-character `data-key` values), so keys are indexed by `Char`.
-/

/-- The cumulative CSS classes a keyboard key element has accumulated. -/
structure KeyClasses where
  correct : Bool
  wrong : Bool
  missing : Bool
deriving DecidableEq, Repr

/-- A key with no status class at all. -/
def KeyClasses.none : KeyClasses := ⟨false, false, false⟩

/-- The mutable state of a `WordleGame` instance. -/
structure GameState where
  tiles : List Tile
  keys : List (Char × KeyClasses)
  targetWord : List Char
  score : Int
  highscore : Int
  stored : Int
deriving DecidableEq, Repr

/-- Observable outputs of one engine operation: the advisory alerts of
`#showAlert` (with the values substituted into the message templates)
and the shake cue of the rejection paths. -/
inductive GameEvent where
  | alertNotEnoughLetters
  | alertNoSuchWord
  | shake
  | alertWin (reward : Int)
  | alertLose (target : List Char) (penalty : Int)
deriving DecidableEq, Repr

/-- Is an event one of the round-terminating messages? -/
def GameEvent.isRoundEnd : GameEvent → Bool
  | .alertWin _ => true
  | .alertLose _ _ => true
  | _ => false

/-- The `toLocaleUpperCase` mapping restricted to one character, as `pressKey`
applies it: lowercase Cyrillic `а`-`я` and ASCII `a`-`z` map to
uppercase, everything else is unchanged. -/
def toUpperCyr (c : Char) : Char :=
  if 'а' ≤ c ∧ c ≤ 'я' then Char.ofNat (c.toNat - 32)
  else if 'a' ≤ c ∧ c ≤ 'z' then Char.ofNat (c.toNat - 32)
  else c

/-- Number of tiles in state `active-spot`
(the length of `tiles.filter` on the `active-spot` data-state). -/
def activeCount (tiles : List Tile) : Nat :=
  (tiles.filter (fun t => t.state = some TileState.activeSpot)).length

/-- Index of the first tile with no `data-letter`
(`tiles.find(tile => isNil(tile.dataset.letter))`). -/
def findIdxEmptyLetter : List Tile → Option Nat
  | [] => Option.none
  | t :: ts =>
    if t.letter = none then some 0 else (findIdxEmptyLetter ts).map (· + 1)

/-- Index of the last tile in state `active-spot`
(`tiles.findLast` on the `active-spot` data-state). -/
def findLastActiveIdx : List Tile → Option Nat
  | [] => Option.none
  | t :: ts =>
    match findLastActiveIdx ts with
    | some j => some (j + 1)
    | Option.none => if t.state = some TileState.activeSpot then some 0 else Option.none

/-- Method `pressKey(key)` (WordleGame.js lines 106-112): no-op when the active
row already holds `wordLength` letters, otherwise `#setTile` on the first
tile with no letter. -/
def pressKey (s : GameState) (c : Char) : GameState :=
  if activeCount s.tiles ≥ wordLength then s
  else
    match findIdxEmptyLetter s.tiles with
    | Option.none => s
    | some i =>
      { s with tiles := s.tiles.set i ⟨some (toUpperCyr c), some TileState.activeSpot⟩ }

/-- Method `deleteKey()` (WordleGame.js lines 117-120): `#resetTile` on the last
`active-spot` tile, no-op if there is none. -/
def deleteKey (s : GameState) : GameState :=
  match findLastActiveIdx s.tiles with
  | Option.none => s
  | some i => { s with tiles := s.tiles.set i Tile.empty }

/-- Does the keyboard have a key for letter `c`
(`keys.find(key => key.dataset.key === letter)` succeeds)? -/
def hasKey (ks : List (Char × KeyClasses)) (c : Char) : Bool :=
  ks.any (fun p => p.1 = c)

/-- The `classList.add` of `#flipTile`: set the class that matches the
classification (classes are a set, adding never removes another). -/
def setClass (k : KeyClasses) : LetterStatus → KeyClasses
  | .correct => { k with correct := true }
  | .present => { k with wrong := true }
  | .absent => { k with missing := true }

/-- Add the status class to the first key whose `data-key` is `c`. -/
def addKeyClass : List (Char × KeyClasses) → Char → LetterStatus → List (Char × KeyClasses)
  | [], _, _ => []
  | p :: ps, c, st =>
    if p.1 = c then (p.1, setClass p.2 st) :: ps else p :: addKeyClass ps c st

/-- Classes of the first key whose `data-key` is `c` (no class when the
key is absent), the read-back of `keys.find(key => key.dataset.key === letter)`. -/
def lookupKey : List (Char × KeyClasses) → Char → KeyClasses
  | [], _ => KeyClasses.none
  | p :: ps, c => if p.1 = c then p.2 else lookupKey ps c

/-- The tile state written by `#flipTile` for each classification. -/
def statusTileState : LetterStatus → TileState
  | .correct => .correctSpot
  | .present => .wrongSpot
  | .absent => .missingSpot

/-- Method `#flipTile(tile, index)` (WordleGame.js lines 254-271): a tile with
no letter, or whose letter has no keyboard key, is left untouched;
otherwise its state and the key's class list are set from `flipLetter`. -/
def flipTile (target : List Char) (i : Nat) (t : Tile)
    (ks : List (Char × KeyClasses)) : Tile × List (Char × KeyClasses) :=
  match t.letter with
  | Option.none => (t, ks)
  | some c =>
    if hasKey ks c then
      let st := flipLetter target i c
      ({ t with state := some (statusTileState st) }, addKeyClass ks c st)
    else (t, ks)

/-- The flip phase of `submitGuess`: every `active-spot` tile is flipped
in grid order, each with its index within the active-tile array (the
`index` argument `#playAnimation` passes to `#flipTile`). -/
def flipAll (target : List Char) (i : Nat) :
    List Tile → List (Char × KeyClasses) → List Tile × List (Char × KeyClasses)
  | [], ks => ([], ks)
  | t :: ts, ks =>
    if t.state = some TileState.activeSpot then
      let r1 := flipTile target i t ks
      let r2 := flipAll target (i + 1) ts r1.2
      (r1.1 :: r2.1, r2.2)
    else
      let r := flipAll target i ts ks
      (t :: r.1, r.2)

/-- The word spelled by the active tiles
(`activeTiles.reduce((word, tile) => word + tile.dataset.letter, '')`);
`none` when some active tile has no letter (the JS concatenation would
then contain the text `undefined` and can match no dictionary word). -/
def guessedWordOpt (s : GameState) : Option (List Char) :=
  (s.tiles.filter (fun t => t.state = some TileState.activeSpot)).mapM (fun t => t.letter)

/-- The test `tiles.every(tile => isString(tile.dataset.letter))`: the grid-full
test of `#checkWinLose`. -/
def allLettersSet (tiles : List Tile) : Bool :=
  tiles.all (fun t => t.letter.isSome)

/-- Method `#updateScore` (WordleGame.js lines 212-227): when the current score
exceeds the high score, write it to `localStorage` and mirror it in
memory (the scoreboard spans exist by construction, so the early-return
guard never fires). -/
def updateScore (s : GameState) : GameState :=
  if s.highscore < s.score then { s with highscore := s.score, stored := s.score }
  else s

/-- Method `#initialize` (WordleGame.js lines 125-131) where `nt` stands for
the randomly sampled fresh target: update the scoreboard, install the
new target, strip every key back to the bare `key` class and reset every tile. -/
def initializeState (nt : List Char) (s : GameState) : GameState :=
  let s1 := updateScore s
  { s1 with
    targetWord := nt
    keys := s1.keys.map (fun p => (p.1, KeyClasses.none))
    tiles := s1.tiles.map (fun _ => Tile.empty) }

/-- Method `#checkWinLose(guess, tiles)` (WordleGame.js lines 180-207), with the
fresh target `nt` passed for the round-restart paths: a guess equal to
the target wins (reward added, win alert, re-initialize); otherwise a
full grid loses (penalty subtracted when the score is positive, lose
alert revealing the target, re-initialize); otherwise nothing happens. -/
def checkWinLose (nt : List Char) (w : List Char) (s : GameState) :
    GameState × List GameEvent :=
  if w = s.targetWord then
    let s1 := { s with score := s.score + scoreReward }
    (initializeState nt s1, [.alertWin scoreReward])
  else if allLettersSet s.tiles then
    let s1 := { s with score := if 0 < s.score then s.score - scorePenalty else s.score }
    (initializeState nt s1, [.alertLose s.targetWord scorePenalty])
  else (s, [])

/-- Method `submitGuess()` (WordleGame.js lines 65-100): reject with an alert
plus shake when the active row is not exactly `wordLength` letters
(checked first) or when the word is not in the dictionary; otherwise
flip every active tile and run the win/lose check. -/
def submitGuess (dict : List (List Char)) (nt : List Char) (s : GameState) :
    GameState × List GameEvent :=
  if activeCount s.tiles ≠ wordLength then
    (s, [.alertNotEnoughLetters, .shake])
  else
    match guessedWordOpt s with
    | Option.none => (s, [.alertNoSuchWord, .shake])
    | some w =>
      if w ∈ dict then
        let r := flipAll s.targetWord 0 s.tiles s.keys
        checkWinLose nt w { s with tiles := r.1, keys := r.2 }
      else (s, [.alertNoSuchWord, .shake])

/-- Modelled from the spec: the status a keyboard key displays given its
accumulated classes.  The keyboard stylesheet is not part of `src/`, so
the precedence among simultaneously present classes is taken from the
spec's best-status-wins rule (§4.1, glossary): `correct-spot` outranks
`wrong-spot`, which outranks `missing-spot`. -/
def displayedKeyStatus (k : KeyClasses) : Option LetterStatus :=
  if k.correct then some .correct
  else if k.wrong then some .present
  else if k.missing then some .absent
  else Option.none

/-!
## Concrete states for witnesses

`alphabetKeys` is `config.keys` minus the `Enter` and `Delete` action
keys (whose multi-character `data-key` can never equal a tile letter).
The demo states exercise the engine at concrete, evaluable inputs.
-/

/-- The 30 letter keys of `config.keys`, in configuration order. -/
def alphabetKeys : List Char :=
  ['Я', 'В', 'Е', 'Р', 'Т', 'Ъ', 'У', 'И', 'О', 'П', 'Ч',
   'А', 'С', 'Д', 'Ф', 'Г', 'Х', 'Й', 'К', 'Л', 'Ш', 'Щ',
   'З', 'Ь', 'Ц', 'Ж', 'Б', 'Н', 'М', 'Ю']

/-- The keyboard as the constructor builds it: every key bare. -/
def initKeys : List (Char × KeyClasses) :=
  alphabetKeys.map (fun c => (c, KeyClasses.none))

/-- The 30-tile grid, all tiles reset. -/
def emptyTiles : List Tile := List.replicate girdLength Tile.empty

/-- A freshly typed (uncommitted) row spelling `w`. -/
def activeRow (w : List Char) : List Tile :=
  w.map (fun c => ⟨some c, some TileState.activeSpot⟩)

/-- A small dictionary for concrete runs. -/
def demoDict : List (List Char) := [wBORKA, wBORKO]

/-- Fresh round: empty grid, bare keys, zero scores. -/
def demoState0 : GameState := ⟨emptyTiles, initKeys, wBORKA, 0, 0, 0⟩

/-- First row typed with `"БОРКО"` against target `"БОРКА"`. -/
def demoState1 : GameState :=
  ⟨activeRow wBORKO ++ List.replicate 25 Tile.empty, initKeys, wBORKA, 3, 7, 7⟩

/-- First row typed with the target `"БОРКА"` itself. -/
def demoState2 : GameState :=
  ⟨activeRow wBORKA ++ List.replicate 25 Tile.empty, initKeys, wBORKA, 3, 7, 7⟩

/-- Last row typed with `"БОРКО"`, previous 25 tiles committed. -/
def demoState3 : GameState :=
  ⟨List.replicate 25 (Tile.mk (some 'А') (some TileState.missingSpot)) ++ activeRow wBORKO,
   initKeys, wBORKA, 3, 7, 7⟩

/-- Empty grid, with the key `Б` already marked `correct-spot`. -/
def demoState4 : GameState :=
  ⟨emptyTiles, addKeyClass initKeys 'Б' LetterStatus.correct, wBORKA, 0, 0, 0⟩

/-- C1: the feedback computed by `#flipTile` does NOT equal the two-pass
reference algorithm of spec §4.2.  At target `"АБВГД"`, guess `"ААААА"`
the code's single-pass membership test marks every non-exact `А` as
`present`, while the two-pass scheme (the `А` being consumed by the
exact match at position 0) marks them `absent`. -/
theorem flipTile_differs_from_twoPass :
    codeFeedback wABVGD wAAAAA =
      [.correct, .present, .present, .present, .present] ∧
    twoPassFeedback wABVGD wAAAAA =
      [.correct, .absent, .absent, .absent, .absent] ∧
    codeFeedback wABVGD wAAAAA ≠ twoPassFeedback wABVGD wAAAAA := by
  decide

/-- C2: the code's feedback violates the occurrence bound.  At target
`"БОРКА"`, guess `"ООООО"` the letter `О` occurs once in the target but
five guess positions are marked `correct`/`present`. -/
theorem flipTile_violates_occurrence_bound :
    codeFeedback wBORKA wOOOOO =
      [.present, .correct, .present, .present, .present] ∧
    countCP wOOOOO (codeFeedback wBORKA wOOOOO) 'О' = 5 ∧
    wBORKA.count 'О' = 1 := by
  decide

/-- C8: at target `"БОРКА"`, guess `"БОРКО"` the code marks the final `О`
as `present` (it is a member of the target), not `absent` as the claim's
two-pass computation requires. -/
theorem borka_borko_feedback :
    codeFeedback wBORKA wBORKO =
      [.correct, .correct, .correct, .correct, .present] ∧
    twoPassFeedback wBORKA wBORKO =
      [.correct, .correct, .correct, .correct, .absent] ∧
    codeFeedback wBORKA wBORKO ≠
      [.correct, .correct, .correct, .correct, .absent] := by
  decide

/-!
## Helper lemmas shared by the state-machine claims
-/

/-- Flipping never changes the letter of a tile, only its state. -/
theorem flipTile_letter (target : List Char) (i : Nat) (t : Tile)
    (ks : List (Char × KeyClasses)) : ((flipTile target i t ks).1).letter = t.letter := by
  rcases t with ⟨l, st⟩
  cases l with
  | none => rfl
  | some c =>
    simp only [flipTile]
    split <;> rfl

/-- The flip phase never changes which tiles hold letters. -/
theorem allLettersSet_flipAll (target : List Char) :
    ∀ (i : Nat) (ts : List Tile) (ks : List (Char × KeyClasses)),
      allLettersSet (flipAll target i ts ks).1 = allLettersSet ts := by
  intro i ts
  induction ts generalizing i with
  | nil => intro ks; rfl
  | cons t ts ih =>
    intro ks
    simp only [flipAll]
    split
    · have h1 := ih (i + 1) (flipTile target i t ks).2
      simp only [allLettersSet] at h1 ⊢
      simp [List.all_cons, flipTile_letter, h1]
    · have h1 := ih i ks
      simp only [allLettersSet] at h1 ⊢
      simp [List.all_cons, h1]

/-- Adding a class via `setClass` never removes the `correct-spot` class. -/
theorem setClass_correct_mono (k : KeyClasses) (st : LetterStatus)
    (h : k.correct = true) : (setClass k st).correct = true := by
  cases st <;> simp [setClass, h]

/-- Adding a status class to any key keeps an existing `correct-spot`
class on every key. -/
theorem lookupKey_addKeyClass_mono (c c' : Char) (st : LetterStatus) :
    ∀ (ks : List (Char × KeyClasses)),
      (lookupKey ks c).correct = true →
      (lookupKey (addKeyClass ks c' st) c).correct = true := by
  intro ks
  induction ks with
  | nil => intro h; simpa [addKeyClass] using h
  | cons p ps ih =>
    intro h
    simp only [lookupKey] at h
    simp only [addKeyClass]
    by_cases hpc' : p.1 = c'
    · simp only [if_pos hpc', lookupKey]
      by_cases hpc : p.1 = c
      · simp only [if_pos hpc] at h ⊢
        exact setClass_correct_mono _ _ h
      · simp only [if_neg hpc] at h ⊢
        exact h
    · simp only [if_neg hpc', lookupKey]
      by_cases hpc : p.1 = c
      · simp only [if_pos hpc] at h ⊢
        exact h
      · simp only [if_neg hpc] at h ⊢
        exact ih h

/-- One `#flipTile` call keeps an existing `correct-spot` class on every
key. -/
theorem lookupKey_flipTile_mono (target : List Char) (i : Nat) (t : Tile)
    (ks : List (Char × KeyClasses)) (c : Char)
    (h : (lookupKey ks c).correct = true) :
    (lookupKey (flipTile target i t ks).2 c).correct = true := by
  rcases t with ⟨l, st⟩
  cases l with
  | none => exact h
  | some a =>
    simp only [flipTile]
    split
    · exact lookupKey_addKeyClass_mono c a _ ks h
    · exact h

/-- The whole flip phase keeps an existing `correct-spot` class on every
key. -/
theorem lookupKey_flipAll_mono (target : List Char) (c : Char) :
    ∀ (i : Nat) (ts : List Tile) (ks : List (Char × KeyClasses)),
      (lookupKey ks c).correct = true →
      (lookupKey (flipAll target i ts ks).2 c).correct = true := by
  intro i ts
  induction ts generalizing i with
  | nil => intro ks h; exact h
  | cons t ts ih =>
    intro ks h
    simp only [flipAll]
    split
    · exact ih _ _ (lookupKey_flipTile_mono target i t ks c h)
    · exact ih _ _ h

/-- Score projection of a round restart. -/
theorem initializeState_score (nt : List Char) (s : GameState) :
    (initializeState nt s).score = s.score := by
  simp only [initializeState, updateScore]
  split <;> rfl

/-- High-score projection of a round restart. -/
theorem initializeState_highscore (nt : List Char) (s : GameState) :
    (initializeState nt s).highscore =
      (if s.highscore < s.score then s.score else s.highscore) := by
  simp only [initializeState, updateScore]
  split <;> rfl

/-- Persistent-store projection of a round restart. -/
theorem initializeState_stored (nt : List Char) (s : GameState) :
    (initializeState nt s).stored =
      (if s.highscore < s.score then s.score else s.stored) := by
  simp only [initializeState, updateScore]
  split <;> rfl

/-- The first-tile-without-letter search really returns such a tile. -/
theorem findIdxEmptyLetter_spec :
    ∀ (ts : List Tile) (j : Nat), findIdxEmptyLetter ts = some j →
      ∃ t, ts[j]? = some t ∧ t.letter = none := by
  intro ts
  induction ts with
  | nil => intro j h; simp [findIdxEmptyLetter] at h
  | cons t ts ih =>
    intro j h
    simp only [findIdxEmptyLetter] at h
    by_cases hl : t.letter = none
    · rw [if_pos hl] at h
      obtain rfl : 0 = j := Option.some.inj h
      exact ⟨t, by simp, hl⟩
    · rw [if_neg hl] at h
      cases hrec : findIdxEmptyLetter ts with
      | none => rw [hrec] at h; simp at h
      | some j' =>
        rw [hrec] at h
        obtain rfl : j' + 1 = j := by simpa using h
        obtain ⟨t', ht', hlet⟩ := ih j' hrec
        exact ⟨t', by simpa using ht', hlet⟩

/-- The last-active-tile search really returns an `active-spot` tile. -/
theorem findLastActiveIdx_spec :
    ∀ (ts : List Tile) (j : Nat), findLastActiveIdx ts = some j →
      ∃ t, ts[j]? = some t ∧ t.state = some TileState.activeSpot := by
  intro ts
  induction ts with
  | nil => intro j h; simp [findLastActiveIdx] at h
  | cons t ts ih =>
    intro j
    cases hrec : findLastActiveIdx ts with
    | some j' =>
      intro h
      have h' : some (j' + 1) = some j := by
        rw [← h]; simp only [findLastActiveIdx, hrec]
      obtain rfl : j' + 1 = j := Option.some.inj h'
      obtain ⟨t', ht', hs⟩ := ih j' hrec
      exact ⟨t', by simpa using ht', hs⟩
    | none =>
      intro h
      have h' : (if t.state = some TileState.activeSpot then some 0 else Option.none) = some j := by
        rw [← h]; simp only [findLastActiveIdx, hrec]
      by_cases hs : t.state = some TileState.activeSpot
      · rw [if_pos hs] at h'
        obtain rfl : 0 = j := Option.some.inj h'
        exact ⟨t, by simp, hs⟩
      · rw [if_neg hs] at h'
        simp at h'

/-!
## The claims about the state machine
-/

/-- C4: a `submitGuess` whose active row is not exactly `wordLength`
letters, or whose word fails the dictionary test, returns the state
fully unchanged (no attempt consumed, tiles, keys, target and scores
untouched) and emits exactly one advisory alert plus the shake cue,
with the incomplete-guess check taking precedence over the
unknown-word check. -/
theorem submitGuess_rejection_frame (dict : List (List Char)) (nt : List Char)
    (s : GameState)
    (h : activeCount s.tiles ≠ wordLength ∨ ∀ w ∈ guessedWordOpt s, w ∉ dict) :
    submitGuess dict nt s =
      (s, if activeCount s.tiles ≠ wordLength then
            [GameEvent.alertNotEnoughLetters, GameEvent.shake]
          else [GameEvent.alertNoSuchWord, GameEvent.shake]) := by
  by_cases hac : activeCount s.tiles ≠ wordLength
  · simp only [submitGuess, if_pos hac]
  · simp only [submitGuess, if_neg hac]
    have hdict : ∀ w ∈ guessedWordOpt s, w ∉ dict := h.resolve_left (by simpa using hac)
    cases hw : guessedWordOpt s with
    | none => rfl
    | some w =>
      have : w ∉ dict := hdict w (by simp [hw])
      simp only [if_neg this]

/-- C4 witness: on a fresh grid (zero active tiles) the submit call is
rejected as an incomplete guess and changes nothing. -/
theorem submitGuess_rejection_frame_witness :
    submitGuess demoDict wBORKA demoState0 =
      (demoState0, [GameEvent.alertNotEnoughLetters, GameEvent.shake]) := by
  have h := submitGuess_rejection_frame demoDict wBORKA demoState0 (Or.inl (by decide))
  rwa [if_pos (show activeCount demoState0.tiles ≠ wordLength by decide)] at h

/-- C9: a tile already classified by a committed attempt (state
`correct-spot`, `wrong-spot` or `missing-spot`, hence carrying its
letter) is left byte-for-byte unchanged by every `pressKey` and every
`deleteKey`: `pressKey` writes only the first tile with no letter and
`deleteKey` resets only the last `active-spot` tile. -/
theorem committed_tiles_immutable (s : GameState) (ch : Char) (i : Nat) (t : Tile)
    (hget : s.tiles[i]? = some t)
    (hcls : t.state = some TileState.correctSpot ∨ t.state = some TileState.wrongSpot ∨
      t.state = some TileState.missingSpot)
    (hlet : t.letter.isSome = true) :
    (pressKey s ch).tiles[i]? = some t ∧ (deleteKey s).tiles[i]? = some t := by
  constructor
  · simp only [pressKey]
    split
    · exact hget
    · cases hfind : findIdxEmptyLetter s.tiles with
      | none => exact hget
      | some j =>
        simp only []
        obtain ⟨t', ht', hl⟩ := findIdxEmptyLetter_spec s.tiles j hfind
        have hij : j ≠ i := by
          intro hji
          rw [hji, hget] at ht'
          obtain rfl : t = t' := Option.some.inj ht'
          rw [hl] at hlet
          simp at hlet
        rw [List.getElem?_set_ne hij]
        exact hget
  · simp only [deleteKey]
    cases hfind : findLastActiveIdx s.tiles with
    | none => exact hget
    | some j =>
      simp only []
      obtain ⟨t', ht', hs⟩ := findLastActiveIdx_spec s.tiles j hfind
      have hij : j ≠ i := by
        intro hji
        rw [hji, hget] at ht'
        obtain rfl : t = t' := Option.some.inj ht'
        rcases hcls with hc | hc | hc <;> rw [hc] at hs <;> simp at hs
      rw [List.getElem?_set_ne hij]
      exact hget

/-- C9 witness: the committed `missing-spot` tile at grid position 0 of
`demoState3` survives a key press and a delete unchanged. -/
theorem committed_tiles_immutable_witness :
    (pressKey demoState3 'б').tiles[0]? =
      some (Tile.mk (some 'А') (some TileState.missingSpot)) ∧
    (deleteKey demoState3).tiles[0]? =
      some (Tile.mk (some 'А') (some TileState.missingSpot)) := by
  exact committed_tiles_immutable demoState3 'б' 0
    (Tile.mk (some 'А') (some TileState.missingSpot))
    (by decide) (Or.inr (Or.inr (by decide))) (by decide)

/-- On the accepted path (full row, dictionary word) `submitGuess` is
the flip phase followed by the win/lose check. -/
theorem submitGuess_committed (dict : List (List Char)) (nt : List Char)
    (s : GameState) (w : List Char)
    (hcnt : activeCount s.tiles = wordLength)
    (hw : guessedWordOpt s = some w)
    (hdictm : w ∈ dict) :
    submitGuess dict nt s =
      checkWinLose nt w
        { s with tiles := (flipAll s.targetWord 0 s.tiles s.keys).1,
                 keys := (flipAll s.targetWord 0 s.tiles s.keys).2 } := by
  have hac : ¬ activeCount s.tiles ≠ wordLength := by simp [hcnt]
  simp only [submitGuess, if_neg hac, hw, if_pos hdictm]

/-- C10: a dictionary-valid guess that misses the target while the grid
still has free rows leaves both scores and the persistent store
untouched and emits no message at all. -/
theorem inprogress_score_frame (dict : List (List Char)) (nt : List Char)
    (s : GameState) (w : List Char)
    (hcnt : activeCount s.tiles = wordLength)
    (hw : guessedWordOpt s = some w)
    (hdictm : w ∈ dict)
    (hne : w ≠ s.targetWord)
    (hfull : allLettersSet s.tiles = false) :
    (submitGuess dict nt s).1.score = s.score ∧
    (submitGuess dict nt s).1.highscore = s.highscore ∧
    (submitGuess dict nt s).1.stored = s.stored ∧
    (submitGuess dict nt s).2 = [] := by
  rw [submitGuess_committed dict nt s w hcnt hw hdictm]
  simp only [checkWinLose]
  rw [if_neg (show ¬ w = _ by simpa using hne)]
  rw [if_neg (show ¬ _ = true by simp [allLettersSet_flipAll, hfull])]
  exact ⟨rfl, rfl, rfl, rfl⟩

/-- C10 witness: submitting `"БОРКО"` against target `"БОРКА"` on the
first row changes no score and emits nothing. -/
theorem inprogress_score_frame_witness :
    (submitGuess demoDict wBORKA demoState1).1.score = 3 ∧
    (submitGuess demoDict wBORKA demoState1).2 = [] := by
  have h := inprogress_score_frame demoDict wBORKA demoState1 wBORKO
    (by decide) (by decide) (by decide) (by decide) (by decide)
  exact ⟨h.1, h.2.2.2⟩

/-- C6: a guess equal to the target adds exactly the configured reward
to the current score, emits exactly one win message carrying that
reward, and persists the new score as high score exactly when it
exceeds the old one. -/
theorem win_round_score (dict : List (List Char)) (nt : List Char)
    (s : GameState) (w : List Char)
    (hcnt : activeCount s.tiles = wordLength)
    (hw : guessedWordOpt s = some w)
    (hdictm : w ∈ dict)
    (heq : w = s.targetWord) :
    (submitGuess dict nt s).1.score = s.score + scoreReward ∧
    (submitGuess dict nt s).2 = [GameEvent.alertWin scoreReward] ∧
    (submitGuess dict nt s).1.highscore =
      (if s.highscore < s.score + scoreReward then s.score + scoreReward
       else s.highscore) ∧
    (submitGuess dict nt s).1.stored =
      (if s.highscore < s.score + scoreReward then s.score + scoreReward
       else s.stored) := by
  rw [submitGuess_committed dict nt s w hcnt hw hdictm]
  simp only [checkWinLose]
  rw [if_pos (show w = _ by simpa using heq)]
  refine ⟨?_, rfl, ?_, ?_⟩
  · rw [initializeState_score]
  · rw [initializeState_highscore]
  · rw [initializeState_stored]

/-- C6 witness: winning with `"БОРКА"` at score 3 and high score 7 moves
the score to 5, emits the reward message once, and leaves the high
score at 7 (5 does not exceed it). -/
theorem win_round_score_witness :
    (submitGuess demoDict wBORKA demoState2).1.score = 5 ∧
    (submitGuess demoDict wBORKA demoState2).2 = [GameEvent.alertWin 2] ∧
    (submitGuess demoDict wBORKA demoState2).1.highscore = 7 ∧
    (submitGuess demoDict wBORKA demoState2).1.stored = 7 := by
  have h := win_round_score demoDict wBORKA demoState2 wBORKA
    (by decide) (by decide) (by decide) (by decide)
  refine ⟨h.1, h.2.1, ?_, ?_⟩
  · rw [h.2.2.1]; decide
  · rw [h.2.2.2]; decide

/-- C5: a lost round (dictionary-valid non-matching guess that fills the
grid) moves the score to `max 0 (score - penalty)` — never negative —
and emits one lose message carrying the revealed target and the
penalty amount. -/
theorem lose_round_score (dict : List (List Char)) (nt : List Char)
    (s : GameState) (w : List Char)
    (hcnt : activeCount s.tiles = wordLength)
    (hw : guessedWordOpt s = some w)
    (hdictm : w ∈ dict)
    (hne : w ≠ s.targetWord)
    (hfull : allLettersSet s.tiles = true)
    (hpos : 0 ≤ s.score) :
    (submitGuess dict nt s).1.score = max 0 (s.score - scorePenalty) ∧
    (submitGuess dict nt s).2 = [GameEvent.alertLose s.targetWord scorePenalty] := by
  rw [submitGuess_committed dict nt s w hcnt hw hdictm]
  simp only [checkWinLose]
  rw [if_neg (show ¬ w = _ by simpa using hne)]
  rw [if_pos (show _ = true by simp [allLettersSet_flipAll, hfull])]
  refine ⟨?_, rfl⟩
  rw [initializeState_score]
  show (if (0:Int) < s.score then s.score - scorePenalty else s.score) =
    max 0 (s.score - scorePenalty)
  simp only [scorePenalty]
  by_cases h0 : (0:Int) < s.score
  · rw [if_pos h0, max_eq_right (by omega)]
  · rw [if_neg h0, max_eq_left (by omega)]
    omega

/-- C5 witness: losing at score 3 moves the score to `max 0 (3 - 1) = 2`
and reveals the target `"БОРКА"` with penalty 1 in the message. -/
theorem lose_round_score_witness :
    (submitGuess demoDict wBORKA demoState3).1.score = 2 ∧
    (submitGuess demoDict wBORKA demoState3).2 =
      [GameEvent.alertLose wBORKA 1] := by
  have h := lose_round_score demoDict wBORKA demoState3 wBORKO
    (by decide) (by decide) (by decide) (by decide) (by decide) (by decide)
  refine ⟨?_, h.2⟩
  rw [h.1]; decide

/-- C7: across every engine operation the high score is monotonically
non-decreasing and mirrored by the persistent store; it changes only by
being set to the current score when that score exceeds it at evaluation
time, and at every round end it is re-evaluated exactly that way. -/
theorem best_score_monotone (dict : List (List Char)) (nt : List Char)
    (s : GameState) (ch : Char)
    (hsync : s.stored = s.highscore) :
    (pressKey s ch).highscore = s.highscore ∧ (pressKey s ch).stored = s.stored ∧
    (deleteKey s).highscore = s.highscore ∧ (deleteKey s).stored = s.stored ∧
    s.highscore ≤ (submitGuess dict nt s).1.highscore ∧
    (submitGuess dict nt s).1.stored = (submitGuess dict nt s).1.highscore ∧
    ((submitGuess dict nt s).1.highscore = s.highscore ∨
      (s.highscore < (submitGuess dict nt s).1.score ∧
       (submitGuess dict nt s).1.highscore = (submitGuess dict nt s).1.score)) ∧
    ((submitGuess dict nt s).2.any GameEvent.isRoundEnd = true →
      (submitGuess dict nt s).1.highscore =
        (if s.highscore < (submitGuess dict nt s).1.score
         then (submitGuess dict nt s).1.score else s.highscore)) := by
  have hp1 : (pressKey s ch).highscore = s.highscore := by
    simp only [pressKey]; split
    · rfl
    · cases findIdxEmptyLetter s.tiles <;> rfl
  have hp2 : (pressKey s ch).stored = s.stored := by
    simp only [pressKey]; split
    · rfl
    · cases findIdxEmptyLetter s.tiles <;> rfl
  have hp3 : (deleteKey s).highscore = s.highscore := by
    simp only [deleteKey]; cases findLastActiveIdx s.tiles <;> rfl
  have hp4 : (deleteKey s).stored = s.stored := by
    simp only [deleteKey]; cases findLastActiveIdx s.tiles <;> rfl
  refine ⟨hp1, hp2, hp3, hp4, ?_⟩
  by_cases hac : activeCount s.tiles ≠ wordLength
  · have he : submitGuess dict nt s = (s, [GameEvent.alertNotEnoughLetters, GameEvent.shake]) := by
      simp only [submitGuess, if_pos hac]
    rw [he]
    exact ⟨le_refl _, hsync, Or.inl rfl, by simp [GameEvent.isRoundEnd]⟩
  · cases hw : guessedWordOpt s with
    | none =>
      have he : submitGuess dict nt s = (s, [GameEvent.alertNoSuchWord, GameEvent.shake]) := by
        simp only [submitGuess, if_neg hac, hw]
      rw [he]
      exact ⟨le_refl _, hsync, Or.inl rfl, by simp [GameEvent.isRoundEnd]⟩
    | some w =>
      by_cases hdictm : w ∈ dict
      · have hcnt : activeCount s.tiles = wordLength := not_not.mp hac
        have he := submitGuess_committed dict nt s w hcnt hw hdictm
        by_cases hwin : w = s.targetWord
        · rw [he]
          simp only [checkWinLose]
          rw [if_pos (show w = _ by simpa using hwin)]
          refine ⟨?_, ?_, ?_, ?_⟩
          · rw [initializeState_highscore]
            show s.highscore ≤
              if s.highscore < s.score + scoreReward then s.score + scoreReward
              else s.highscore
            by_cases hlt : s.highscore < s.score + scoreReward
            · rw [if_pos hlt]; exact le_of_lt hlt
            · rw [if_neg hlt]
          · rw [initializeState_stored, initializeState_highscore]
            show (if s.highscore < s.score + scoreReward then s.score + scoreReward
                  else s.stored) =
              (if s.highscore < s.score + scoreReward then s.score + scoreReward
               else s.highscore)
            by_cases hlt : s.highscore < s.score + scoreReward
            · rw [if_pos hlt, if_pos hlt]
            · rw [if_neg hlt, if_neg hlt]; exact hsync
          · rw [initializeState_score, initializeState_highscore]
            show (if s.highscore < s.score + scoreReward then s.score + scoreReward
                  else s.highscore) = s.highscore ∨
              (s.highscore < s.score + scoreReward ∧
                (if s.highscore < s.score + scoreReward then s.score + scoreReward
                 else s.highscore) = s.score + scoreReward)
            by_cases hlt : s.highscore < s.score + scoreReward
            · exact Or.inr ⟨hlt, by rw [if_pos hlt]⟩
            · exact Or.inl (by rw [if_neg hlt])
          · intro _
            rw [initializeState_score, initializeState_highscore]
        · by_cases hfull : allLettersSet s.tiles = true
          · rw [he]
            simp only [checkWinLose]
            rw [if_neg (show ¬ w = _ by simpa using hwin)]
            rw [if_pos (show _ = true by simp [allLettersSet_flipAll, hfull])]
            refine ⟨?_, ?_, ?_, ?_⟩
            · rw [initializeState_highscore]
              show s.highscore ≤
                if s.highscore < (if 0 < s.score then s.score - scorePenalty else s.score)
                then (if 0 < s.score then s.score - scorePenalty else s.score)
                else s.highscore
              by_cases hlt :
                  s.highscore < (if 0 < s.score then s.score - scorePenalty else s.score)
              · rw [if_pos hlt]; exact le_of_lt hlt
              · rw [if_neg hlt]
            · rw [initializeState_stored, initializeState_highscore]
              show (if s.highscore < (if 0 < s.score then s.score - scorePenalty else s.score)
                    then (if 0 < s.score then s.score - scorePenalty else s.score)
                    else s.stored) =
                (if s.highscore < (if 0 < s.score then s.score - scorePenalty else s.score)
                 then (if 0 < s.score then s.score - scorePenalty else s.score)
                 else s.highscore)
              by_cases hlt :
                  s.highscore < (if 0 < s.score then s.score - scorePenalty else s.score)
              · rw [if_pos hlt, if_pos hlt]
              · rw [if_neg hlt, if_neg hlt]; exact hsync
            · rw [initializeState_score, initializeState_highscore]
              show (if s.highscore < (if 0 < s.score then s.score - scorePenalty else s.score)
                    then (if 0 < s.score then s.score - scorePenalty else s.score)
                    else s.highscore) = s.highscore ∨
                (s.highscore < (if 0 < s.score then s.score - scorePenalty else s.score) ∧
                  (if s.highscore < (if 0 < s.score then s.score - scorePenalty else s.score)
                   then (if 0 < s.score then s.score - scorePenalty else s.score)
                   else s.highscore) =
                    (if 0 < s.score then s.score - scorePenalty else s.score))
              by_cases hlt :
                  s.highscore < (if 0 < s.score then s.score - scorePenalty else s.score)
              · exact Or.inr ⟨hlt, by rw [if_pos hlt]⟩
              · exact Or.inl (by rw [if_neg hlt])
            · intro _
              rw [initializeState_score, initializeState_highscore]
          · rw [he]
            simp only [checkWinLose]
            rw [if_neg (show ¬ w = _ by simpa using hwin)]
            rw [if_neg (show ¬ _ = true by rw [allLettersSet_flipAll]; exact hfull)]
            exact ⟨le_refl _, hsync, Or.inl rfl, by simp⟩
      · have he : submitGuess dict nt s = (s, [GameEvent.alertNoSuchWord, GameEvent.shake]) := by
          simp only [submitGuess, if_neg hac, hw, if_neg hdictm]
        rw [he]
        exact ⟨le_refl _, hsync, Or.inl rfl, by simp [GameEvent.isRoundEnd]⟩

/-- C7 witness: from the in-sync state `demoState1` a key press keeps
the high score at 7 and a submit never lowers it. -/
theorem best_score_monotone_witness :
    (pressKey demoState1 'а').highscore = 7 ∧
    (7:Int) ≤ (submitGuess demoDict wBORKA demoState1).1.highscore := by
  have h := best_score_monotone demoDict wBORKA demoState1 'а' (by decide)
  exact ⟨h.1, h.2.2.2.2.1⟩

/-- C3: a keyboard key that has already received the `correct-spot`
class keeps it for the rest of the round — `pressKey`/`deleteKey` never
touch the key map, and a `submitGuess` that does not end the round
leaves the key displaying `Correct` (the map is cleared only by the
round-end re-initialization). -/
theorem key_correct_persists (dict : List (List Char)) (nt : List Char)
    (s : GameState) (ch : Char) (c : Char)
    (h : (lookupKey s.keys c).correct = true) :
    (pressKey s ch).keys = s.keys ∧
    (deleteKey s).keys = s.keys ∧
    ((submitGuess dict nt s).2.any GameEvent.isRoundEnd = false →
      displayedKeyStatus (lookupKey (submitGuess dict nt s).1.keys c) =
        some LetterStatus.correct) := by
  refine ⟨?_, ?_, ?_⟩
  · simp only [pressKey]; split
    · rfl
    · cases findIdxEmptyLetter s.tiles <;> rfl
  · simp only [deleteKey]; cases findLastActiveIdx s.tiles <;> rfl
  · intro hend
    by_cases hac : activeCount s.tiles ≠ wordLength
    · have he : submitGuess dict nt s = (s, [GameEvent.alertNotEnoughLetters, GameEvent.shake]) := by
        simp only [submitGuess, if_pos hac]
      rw [he]
      simp [displayedKeyStatus, h]
    · cases hw : guessedWordOpt s with
      | none =>
        have he : submitGuess dict nt s = (s, [GameEvent.alertNoSuchWord, GameEvent.shake]) := by
          simp only [submitGuess, if_neg hac, hw]
        rw [he]
        simp [displayedKeyStatus, h]
      | some w =>
        by_cases hdictm : w ∈ dict
        · have hcnt : activeCount s.tiles = wordLength := not_not.mp hac
          have he := submitGuess_committed dict nt s w hcnt hw hdictm
          by_cases hwin : w = s.targetWord
          · rw [he] at hend
            simp only [checkWinLose] at hend
            rw [if_pos (show w = _ by simpa using hwin)] at hend
            simp [GameEvent.isRoundEnd] at hend
          · by_cases hfull : allLettersSet s.tiles = true
            · rw [he] at hend
              simp only [checkWinLose] at hend
              rw [if_neg (show ¬ w = _ by simpa using hwin)] at hend
              rw [if_pos (show _ = true by simp [allLettersSet_flipAll, hfull])] at hend
              simp [GameEvent.isRoundEnd] at hend
            · rw [he]
              simp only [checkWinLose]
              rw [if_neg (show ¬ w = _ by simpa using hwin)]
              rw [if_neg (show ¬ _ = true by rw [allLettersSet_flipAll]; exact hfull)]
              have hmono := lookupKey_flipAll_mono s.targetWord c 0 s.tiles s.keys h
              simp [displayedKeyStatus, hmono]
        · have he : submitGuess dict nt s = (s, [GameEvent.alertNoSuchWord, GameEvent.shake]) := by
            simp only [submitGuess, if_neg hac, hw, if_neg hdictm]
          rw [he]
          simp [displayedKeyStatus, h]

/-- C3 witness: from `demoState4`, where the key `Б` is already marked
`correct-spot`, a key press leaves the key map alone and a (rejected,
hence round-preserving) submit leaves `Б` displaying `Correct`. -/
theorem key_correct_persists_witness :
    (pressKey demoState4 'а').keys = demoState4.keys ∧
    displayedKeyStatus (lookupKey (submitGuess demoDict wBORKA demoState4).1.keys 'Б') =
      some LetterStatus.correct := by
  have h := key_correct_persists demoDict wBORKA demoState4 'а' 'Б' (by decide)
  exact ⟨h.1, h.2.2 (by decide)⟩

end BGWordle
